import Mathlib

/-!
A verification development for the command-dispatch core of a minimal
interactive shell (`myshell.c`).  The C source is shallowly embedded:
pure token-inspection helpers become Lean functions on `List String`;
process-, descriptor- and signal-related system calls are modelled by
explicit environments recording each call's outcome, and the embedded
functions return the same codes the C functions return, together with
records of the externally visible actions they perform.
-/

namespace Myshell

/-! ### Constants from the source and from POSIX headers -/

def GENERAL_SUCCESS : Int := 0
def GENERAL_FAILURE : Int := -1
def PROC_ARGLIST_CONTINUE : Int := 1
def PROC_ARGLIST_STOP : Int := 0

def STDIN_FILENO : Nat := 0
def STDOUT_FILENO : Nat := 1

def SIGINT : Nat := 2
def SIGCHLD : Nat := 17

def O_RDONLY : Nat := 0
def O_RDWR : Nat := 2
def O_CREAT : Nat := 64
def O_TRUNC : Nat := 512
def S_IRUSR : Nat := 256
def S_IWUSR : Nat := 128

/-! ### Token-array inspection helpers

The C functions receive `(int count, char** arglist)` where `arglist`
holds `count` non-NULL words.  They are embedded as functions on
`List String`, with `count = arglist.length`.  In-place nulling of
entries (`arglist[i] = NULL`) is modelled by producing a
`List (Option String)` in which a nulled cell is `none`. -/

/-- Embeds `is_piping_command`: scans the words for one equal to `"|"`. -/
def is_piping_command (arglist : List String) : Bool :=
  arglist.any (fun w => w == "|")

/-- Embeds `is_background_command`: tests whether `arglist[count - 1]`
equals `"&"`. -/
def is_background_command (arglist : List String) : Bool :=
  arglist.getLast? == some "&"

/-- Embeds `is_input_redirection_command`: `count >= 2` and
`arglist[count - 2]` equals `"<"`. -/
def is_input_redirection_command (arglist : List String) : Bool :=
  decide (2 ≤ arglist.length) && (arglist.getD (arglist.length - 2) "" == "<")

/-- Embeds `is_output_redirection_command`: `count >= 2` and
`arglist[count - 2]` equals `">"`. -/
def is_output_redirection_command (arglist : List String) : Bool :=
  decide (2 ≤ arglist.length) && (arglist.getD (arglist.length - 2) "" == ">")

/-- Embeds `count_pipes`: the number of words equal to `"|"`. -/
def count_pipes (arglist : List String) : Nat :=
  (arglist.filter (fun w => w == "|")).length

/-- Embeds `set_pipes_to_null`: every word equal to `"|"` is replaced by
NULL (`none`); all other cells keep their word. -/
def set_pipes_to_null (arglist : List String) : List (Option String) :=
  arglist.map (fun w => if w == "|" then none else some w)

/-! ### The classifier, as the spec names it

`process_arglist` classifies the command line by testing the four
predicates above in priority order; `classify` is that chain of tests
(source lines 376-397), and `classification_holds` states each of the
five classifications as the spec's rules give them. -/

inductive Classification where
  | pipeline
  | background
  | inputRedirect
  | outputRedirect
  | simple
deriving DecidableEq

/-- The classification `process_arglist` selects: the four predicates are
tested in the source's order (pipeline, background, input redirection,
output redirection), first match winning, with `simple` the fallthrough. -/
def classify (arglist : List String) : Classification :=
  if is_piping_command arglist then .pipeline
  else if is_background_command arglist then .background
  else if is_input_redirection_command arglist then .inputRedirect
  else if is_output_redirection_command arglist then .outputRedirect
  else .simple

/-- Each of the five classifications as a predicate on the token array:
pipeline (some token is `|`), background (last token is `&`), input
redirection (count ≥ 2 and second-to-last token is `<`), output
redirection (count ≥ 2 and second-to-last token is `>`), and simple
(none of the other four). -/
def classification_holds : Classification → List String → Prop
  | .pipeline, t => is_piping_command t = true
  | .background, t => is_background_command t = true
  | .inputRedirect, t => is_input_redirection_command t = true
  | .outputRedirect, t => is_output_redirection_command t = true
  | .simple, t =>
      is_piping_command t = false ∧ is_background_command t = false ∧
      is_input_redirection_command t = false ∧ is_output_redirection_command t = false

/-- A token array mentions an operator class when the operator word
occurs among its tokens. -/
def has_op (arglist : List String) (op : String) : Bool :=
  arglist.contains op

/-- The spec's single-operator-class assumption: at most one of the four
operator classes `|`, `&`, `<`, `>` occurs in the command line. -/
def single_operator_class (arglist : List String) : Prop :=
  ([has_op arglist "|", has_op arglist "&",
    has_op arglist "<", has_op arglist ">"].count true) ≤ 1

/-! ### Wait errors

`waitpid` failures are distinguished only by `errno`; the source swallows
`ECHILD` and `EINTR` and treats every other failure as an error. -/

inductive Errno where
  | eCHILD
  | eINTR
  | eOther
deriving DecidableEq

/-- A blocking wait outcome: `none` means `waitpid` returned a pid;
`some e` means it returned `-1` with `errno = e`.  `wait_failed` is the
source's test `(-1 == waitpid(...)) && (errno != ECHILD) && (errno != EINTR)`
(lines 187 and 333). -/
def wait_failed : Option Errno → Bool
  | none => false
  | some e => !(e == Errno.eCHILD || e == Errno.eINTR)

/-! ### Child-process traces

A forked child performs a sequence of externally visible actions before
it either replaces its program image (`exec`) or exits.  The embeddings
below produce that action list, following the source's child branches
exactly; an environment records the outcome of each fallible call. -/

inductive ChildAct where
  | closeFd (fd : Nat)
  | sigReset (sig : Nat)
  | dupTo (src : Nat) (dst : Nat)
  | runPrep
  | exec (prog : String)
  | exitCode (code : Nat)
deriving DecidableEq

/-- Outcomes of the fallible calls made inside the child of
`run_command_internal`. -/
structure ChildEnv where
  sigChldOk : Bool
  sigIntOk : Bool
  prepOk : Bool
  execOk : Bool
deriving DecidableEq

/-- The tail of the child trace from the `execvp` call on (source lines
176-182): on success the image is replaced and the trace ends at `exec`;
on failure the child exits with status 1. -/
def child_exec_part (env : ChildEnv) (prog : String) : List ChildAct :=
  if env.execOk then [ChildAct.exec prog]
  else [ChildAct.exec prog, ChildAct.exitCode 1]

/-- The tail of the child trace from the optional preparation handler on
(source lines 168-174): when a handler is supplied it runs; on its
failure the child exits with status 1, otherwise `execvp` follows. -/
def child_prep_part (env : ChildEnv) (hasPrep : Bool) (prog : String) : List ChildAct :=
  if hasPrep then
    ChildAct.runPrep ::
      (if env.prepOk then child_exec_part env prog else [ChildAct.exitCode 1])
  else child_exec_part env prog

/-- Embeds the child branch of `run_command_internal` (source lines
151-182): reset `SIGCHLD` to default (exit 1 on failure); when
foreground, also reset `SIGINT` to default (exit 1 on failure); run the
preparation handler when one is supplied; replace the program image. -/
def run_command_child (env : ChildEnv) (is_foreground : Bool) (hasPrep : Bool)
    (prog : String) : List ChildAct :=
  ChildAct.sigReset SIGCHLD ::
    (if env.sigChldOk then
      (if is_foreground then
        ChildAct.sigReset SIGINT ::
          (if env.sigIntOk then child_prep_part env hasPrep prog
           else [ChildAct.exitCode 1])
       else child_prep_part env hasPrep prog)
     else [ChildAct.exitCode 1])

/-- Outcomes of the fallible calls made inside a pipeline stage's child. -/
structure PChildEnv where
  sigChldOk : Bool
  sigIntOk : Bool
  dupInOk : Bool
  dupOutOk : Bool
  execOk : Bool
deriving DecidableEq

/-- Tail of a pipeline stage child's trace from `execvp` on (source
lines 291-295). -/
def pchild_exec_part (env : PChildEnv) (prog : String) : List ChildAct :=
  if env.execOk then [ChildAct.exec prog]
  else [ChildAct.exec prog, ChildAct.exitCode 1]

/-- Tail of a pipeline stage child's trace from the standard-output
rewiring on (source lines 280-289): a non-last stage duplicates the
current pipe's write end onto standard output (exit 1 on failure) and
closes the original. -/
def pchild_out_part (env : PChildEnv) (i pipe_count : Nat) (toNextW : Nat)
    (prog : String) : List ChildAct :=
  if i < pipe_count then
    ChildAct.dupTo toNextW STDOUT_FILENO ::
      (if env.dupOutOk then ChildAct.closeFd toNextW :: pchild_exec_part env prog
       else [ChildAct.exitCode 1])
  else pchild_exec_part env prog

/-- Tail of a pipeline stage child's trace from the standard-input
rewiring on (source lines 270-279): a non-first stage duplicates the
previous pipe's read end onto standard input (exit 1 on failure) and
closes the original. -/
def pchild_in_part (env : PChildEnv) (i pipe_count : Nat) (prevR toNextW : Nat)
    (prog : String) : List ChildAct :=
  if 0 < i then
    ChildAct.dupTo prevR STDIN_FILENO ::
      (if env.dupInOk then ChildAct.closeFd prevR :: pchild_out_part env i pipe_count toNextW prog
       else [ChildAct.exitCode 1])
  else pchild_out_part env i pipe_count toNextW prog

/-- Embeds the child branch of `run_piped_commands` for stage `i` of a
pipeline with `pipe_count` separators (source lines 248-295): close the
unused read end of the just-created pipe (present exactly when
`i < pipe_count`); reset `SIGCHLD` then `SIGINT` to default (exit 1 on
failure); rewire standard input (non-first stage) and standard output
(non-last stage); replace the program image with the stage's slice. -/
def pipeline_child (env : PChildEnv) (i pipe_count : Nat)
    (prevR toNextR toNextW : Nat) (prog : String) : List ChildAct :=
  (if i < pipe_count then [ChildAct.closeFd toNextR] else []) ++
    ChildAct.sigReset SIGCHLD ::
      (if env.sigChldOk then
        ChildAct.sigReset SIGINT ::
          (if env.sigIntOk then pchild_in_part env i pipe_count prevR toNextW prog
           else [ChildAct.exitCode 1])
       else [ChildAct.exitCode 1])

/-- `execPrecededBy sig tr` holds when, scanning the trace `tr` in
order, no `exec` action is met before a reset of `sig` to default: that
is, if the child replaces its program image, disposition `sig` was reset
beforehand (vacuously true for a child that never reaches `exec`). -/
def execPrecededBy (sig : Nat) : List ChildAct → Bool
  | [] => true
  | ChildAct.exec _ :: _ => false
  | ChildAct.sigReset s :: rest => if s = sig then true else execPrecededBy sig rest
  | _ :: rest => execPrecededBy sig rest

/-! ### Redirection preparers

`input_redirection_preparation_handler` and
`output_redirection_preparation_handler` (source lines 87-142) run
inside a child.  The environment records the `open` outcome (`none`
models `-1`: the file is missing or inaccessible, or creation failed)
and the `dup2` outcome; the result records the request passed to
`open`, the `dup2` performed, the descriptor closed in cleanup, and the
token array as left for `execvp`. -/

structure RedirEnv where
  openFd : Option Nat
  dup2Ok : Bool
deriving DecidableEq

structure RedirOutcome where
  ret : Int
  opened : String × Nat × Nat
  dupped : Option (Nat × Nat)
  closed : Option Nat
  arglist : List (Option String)
deriving DecidableEq

/-- Embeds `input_redirection_preparation_handler` (source lines
87-112): open `arglist[count - 1]` with `O_RDONLY` and mode
`S_IRUSR | S_IWUSR`; on failure return `GENERAL_FAILURE` with nothing
dupped or closed.  Otherwise `dup2` the descriptor onto standard input;
whether or not that succeeds, the descriptor is closed in cleanup; only
on `dup2` success is `arglist[count - 2]` nulled and `GENERAL_SUCCESS`
returned. -/
def input_redirection_preparation_handler (env : RedirEnv)
    (arglist : List String) : RedirOutcome :=
  let req := (arglist.getLastD "", O_RDONLY, S_IRUSR ||| S_IWUSR)
  match env.openFd with
  | none =>
      { ret := GENERAL_FAILURE, opened := req, dupped := none, closed := none,
        arglist := arglist.map some }
  | some fd =>
      if env.dup2Ok then
        { ret := GENERAL_SUCCESS, opened := req,
          dupped := some (fd, STDIN_FILENO), closed := some fd,
          arglist := (arglist.map some).set (arglist.length - 2) none }
      else
        { ret := GENERAL_FAILURE, opened := req,
          dupped := some (fd, STDIN_FILENO), closed := some fd,
          arglist := arglist.map some }

/-- Embeds `output_redirection_preparation_handler` (source lines
117-142): identical control flow, but the file is opened with
`O_RDWR | O_CREAT | O_TRUNC` (write access, created if absent,
truncated if present) and mode `S_IRUSR | S_IWUSR`, and the descriptor
is dupped onto standard output. -/
def output_redirection_preparation_handler (env : RedirEnv)
    (arglist : List String) : RedirOutcome :=
  let req := (arglist.getLastD "", O_RDWR ||| O_CREAT ||| O_TRUNC, S_IRUSR ||| S_IWUSR)
  match env.openFd with
  | none =>
      { ret := GENERAL_FAILURE, opened := req, dupped := none, closed := none,
        arglist := arglist.map some }
  | some fd =>
      if env.dup2Ok then
        { ret := GENERAL_SUCCESS, opened := req,
          dupped := some (fd, STDOUT_FILENO), closed := some fd,
          arglist := (arglist.map some).set (arglist.length - 2) none }
      else
        { ret := GENERAL_FAILURE, opened := req,
          dupped := some (fd, STDOUT_FILENO), closed := some fd,
          arglist := arglist.map some }

/-- The argument vector `execvp` actually receives from a (possibly
nulled) token array: the run of words before the first NULL cell. -/
def execvp_visible_args (arglist : List (Option String)) : List String :=
  (arglist.takeWhile (fun c => c.isSome)).filterMap id

/-! ### Process launcher (parent side)

`run_command_internal` (source lines 144-200), as seen by the parent.
The environment records the `fork` outcome and the blocking-wait
outcome; it also carries the child-side environment, which the parent's
return value never consults (the source passes `NULL` as `waitpid`'s
status argument and ignores the child's fate). -/

structure LaunchEnv where
  forkOk : Bool
  waitErr : Option Errno
  child : ChildEnv
deriving DecidableEq

/-- Embeds the parent path of `run_command_internal`: `fork` failure
returns `GENERAL_FAILURE`; a foreground parent blocks in
`waitpid(pid, NULL, 0)` and fails only on a non-swallowed wait error; a
background parent does one unchecked non-blocking reap and succeeds. -/
def run_command_internal (env : LaunchEnv) (is_foreground : Bool) : Int :=
  if env.forkOk = false then GENERAL_FAILURE
  else if is_foreground then
    (if wait_failed env.waitErr then GENERAL_FAILURE else GENERAL_SUCCESS)
  else GENERAL_SUCCESS

/-- Embeds `run_command` (source lines 202-205). -/
def run_command (env : LaunchEnv) (is_foreground : Bool) : Int :=
  run_command_internal env is_foreground

/-- Embeds `run_input_redirection_command` (source lines 207-211):
always foreground, with the input preparer supplied to the child. -/
def run_input_redirection_command (env : LaunchEnv) : Int :=
  run_command_internal env true

/-- Embeds `run_output_redirection_command` (source lines 213-217):
always foreground, with the output preparer supplied to the child. -/
def run_output_redirection_command (env : LaunchEnv) : Int :=
  run_command_internal env true

/-! ### Pipeline orchestrator (parent side)

`run_piped_commands` (source lines 219-342).  The parent's descriptor
bookkeeping is modelled explicitly: `openFds` is the set of pipe
descriptors currently open in the parent, `inherited` those a forked
child has received, and `fresh` an allocator for new descriptor
numbers.  `pids` is the fixed 10-entry process-handle array; a write to
it is guarded exactly as C array indexing is (in-bounds writes update,
an out-of-bounds index would set `oob`). -/

structure PipeEnv where
  pipeOk : Nat → Bool
  forkOk : Nat → Bool
  waitErr : Nat → Option Errno
  child : Nat → PChildEnv

/-- The parent's mutable state across the launch loop.  `prevR`/`prevW`
mirror `pipe_from_prev[0]`/`pipe_from_prev[1]`, with `none` standing
for the sentinel `-1`. -/
structure PState where
  prevR : Option Nat
  prevW : Option Nat
  openFds : List Nat
  inherited : List Nat
  fresh : Nat
  pids : List Int
  oob : Bool
  spawned : List Nat
  argIdx : Nat
deriving DecidableEq

def initPState : PState :=
  { prevR := none, prevW := none, openFds := [], inherited := [], fresh := 3,
    pids := List.replicate 10 0, oob := false, spawned := [], argIdx := 0 }

/-- Checkpoints at which the launch loop's descriptor state is observed:
after the `pipe` call, after `fork`, and at the end of the iteration's
parent bookkeeping (tagged with whether this was the last stage). -/
inductive CheckTag where
  | afterPipe
  | afterFork
  | iterEnd (last : Bool)
deriving DecidableEq

/-- Closing a registered descriptor: the source closes a pipe end only
when its register is not `-1`. -/
def eraseOpt (x : Option Nat) (l : List Nat) : List Nat :=
  match x with
  | none => l
  | some v => l.erase v

/-- Embeds the stage-advance loop on (source lines 321-325): skip to
just past the next NULL cell at or after `i` (the array's terminating
NULL sits conceptually at index `arglist.length`). -/
def advance_arg_index (arglist : List (Option String)) (i : Nat) : Nat :=
  match (arglist.drop i).findIdx? (fun c => c == none) with
  | some j => i + j + 1
  | none => arglist.length + 1

/-- The `pipe` call of stage `i` (source line 239): a non-last stage
receives two fresh descriptors, which become open in the parent; the
last stage creates no pipe. -/
def pipe_apply (pipe_count i : Nat) (s : PState) : PState :=
  if i < pipe_count then
    { s with openFds := s.openFds ++ [s.fresh, s.fresh + 1], fresh := s.fresh + 2 }
  else s

/-- The `fork` of stage `i` and the parent's pid bookkeeping (source
lines 244, 299): the child inherits every descriptor open in the
parent, the stage is recorded as spawned, and `pids[i]` is written —
in bounds when `i < 10`, otherwise the out-of-bounds flag is set. -/
def fork_mark (i : Nat) (s1 : PState) : PState :=
  { s1 with
    inherited := s1.inherited ++ s1.openFds,
    spawned := s1.spawned ++ [i],
    pids := s1.pids.set i ((i : Int) + 1),
    oob := s1.oob || decide (10 ≤ i) }

/-- The parent's descriptor bookkeeping at the end of stage `i` (source
lines 301-325), where `f` is the value `s.fresh` had before the stage's
`pipe` call: close `pipe_from_prev[0]`, `pipe_from_prev[1]` and the new
pipe's write end (each only when registered), carry the new read end
forward as `pipe_from_prev[0]`, and advance the token index past the
stage's terminator. -/
def parent_step (pipe_count i : Nat) (arglist : List (Option String)) (f : Nat)
    (s2 : PState) : PState :=
  { s2 with
    openFds := eraseOpt (if i < pipe_count then some (f + 1) else none)
      (eraseOpt s2.prevW (eraseOpt s2.prevR s2.openFds)),
    prevR := if i < pipe_count then some f else none,
    prevW := none,
    argIdx := advance_arg_index arglist s2.argIdx }

/-- Embeds the launch loop of `run_piped_commands` (source lines
237-327) over the list of stage indices.  Per stage `i`: a non-last
stage creates a pipe (abort on failure, state unchanged); `fork` (abort
on failure); in the parent, record the pid, close `pipe_from_prev`'s
two ends and the new pipe's write end, carry the new read end forward,
and advance the token index.  Returns whether the loop completed, the
final state, and the tagged checkpoint states. -/
def run_stages (env : PipeEnv) (pipe_count : Nat) (arglist : List (Option String)) :
    List Nat → PState → Bool × PState × List (CheckTag × PState)
  | [], s => (true, s, [])
  | i :: rest, s =>
    if decide (i < pipe_count) && !(env.pipeOk i) then (false, s, [])
    else
      let s1 := pipe_apply pipe_count i s
      if !(env.forkOk i) then (false, s1, [(CheckTag.afterPipe, s1)])
      else
        let s2 := fork_mark i s1
        let s3 := parent_step pipe_count i arglist s.fresh s2
        let r := run_stages env pipe_count arglist rest s3
        (r.1, r.2.1,
          (CheckTag.afterPipe, s1) :: (CheckTag.afterFork, s2) ::
            (CheckTag.iterEnd (decide (i = pipe_count)), s3) :: r.2.2)

/-- Embeds the wait loop of `run_piped_commands` (source lines
329-337): wait on `pids[i]` in stage order; a non-swallowed wait error
aborts with failure.  Returns success and the `pids` indices read. -/
def wait_loop (env : PipeEnv) : List Nat → Bool × List Nat
  | [] => (true, [])
  | i :: rest =>
      if wait_failed (env.waitErr i) then (false, [i])
      else
        let r := wait_loop env rest
        (r.1, i :: r.2)

structure PipeRunResult where
  ret : Int
  spawned : List Nat
  oob : Bool
  waitReads : List Nat
  arglist : List (Option String)
  checkpoints : List (CheckTag × PState)
  finalState : PState

/-- Embeds `run_piped_commands` (source lines 219-342): count the pipe
tokens, null every pipe token (before the bound check, as the source
does), reject with `GENERAL_SUCCESS` and no spawning when more than 9
separators, otherwise run the launch loop for stages `0..pipe_count`
and, when it completed, the wait loop. -/
def run_piped_commands (env : PipeEnv) (arglist : List String) : PipeRunResult :=
  let pipe_count := count_pipes arglist
  let nulled := set_pipes_to_null arglist
  if 9 < pipe_count then
    { ret := GENERAL_SUCCESS, spawned := [], oob := false, waitReads := [],
      arglist := nulled, checkpoints := [], finalState := initPState }
  else
    let r := run_stages env pipe_count nulled (List.range (pipe_count + 1)) initPState
    if r.1 = false then
      { ret := GENERAL_FAILURE, spawned := r.2.1.spawned, oob := r.2.1.oob,
        waitReads := [], arglist := nulled, checkpoints := r.2.2, finalState := r.2.1 }
    else
      let w := wait_loop env (List.range (pipe_count + 1))
      { ret := if w.1 then GENERAL_SUCCESS else GENERAL_FAILURE,
        spawned := r.2.1.spawned, oob := r.2.1.oob, waitReads := w.2,
        arglist := nulled, checkpoints := r.2.2, finalState := r.2.1 }

/-! ### Dispatcher and lifecycle entry points -/

structure ShellEnv where
  cmd : LaunchEnv
  pipe : PipeEnv

/-- Embeds `process_arglist` (source lines 370-402): classify by the
priority chain of predicates and run the matching handler; any handler
returning other than `GENERAL_SUCCESS` yields `PROC_ARGLIST_STOP`,
otherwise `PROC_ARGLIST_CONTINUE`.  (The background branch also nulls
the trailing `&` before launching; that mutation is local to the token
array handed to the child.) -/
def process_arglist (env : ShellEnv) (arglist : List String) : Int :=
  if is_piping_command arglist then
    (if (run_piped_commands env.pipe arglist).ret ≠ GENERAL_SUCCESS then PROC_ARGLIST_STOP
     else PROC_ARGLIST_CONTINUE)
  else if is_background_command arglist then
    (if run_command env.cmd false ≠ GENERAL_SUCCESS then PROC_ARGLIST_STOP
     else PROC_ARGLIST_CONTINUE)
  else if is_input_redirection_command arglist then
    (if run_input_redirection_command env.cmd ≠ GENERAL_SUCCESS then PROC_ARGLIST_STOP
     else PROC_ARGLIST_CONTINUE)
  else if is_output_redirection_command arglist then
    (if run_output_redirection_command env.cmd ≠ GENERAL_SUCCESS then PROC_ARGLIST_STOP
     else PROC_ARGLIST_CONTINUE)
  else
    (if run_command env.cmd true ≠ GENERAL_SUCCESS then PROC_ARGLIST_STOP
     else PROC_ARGLIST_CONTINUE)

inductive SigDisp where
  | dfl
  | ign
  | handler
deriving DecidableEq

/-- One `signal`/`sigaction` call: the signal, the requested
disposition, and whether the call succeeded. -/
structure SignalRestoreCall where
  sig : Nat
  dispo : SigDisp
  ok : Bool
deriving DecidableEq

structure PrepareEnv where
  sigintIgnOk : Bool
  sigactionOk : Bool
deriving DecidableEq

/-- Embeds `prepare` (source lines 344-361): ignore `SIGINT` and
install the reaping `SIGCHLD` handler; either call's failure is fatal
to startup. -/
def prepare (env : PrepareEnv) : Int :=
  if env.sigintIgnOk = false then GENERAL_FAILURE
  else if env.sigactionOk = false then GENERAL_FAILURE
  else GENERAL_SUCCESS

/-- State `finalize` runs under: the outcomes of its two `signal`
calls, and whether a prior `prepare` had succeeded (the source never
consults that). -/
structure FinalizeEnv where
  sigintOk : Bool
  sigchldOk : Bool
  prepared : Bool
deriving DecidableEq

/-- Embeds `finalize` (source lines 404-409): unconditionally request
default dispositions for `SIGINT` then `SIGCHLD`, ignore both results,
and return `GENERAL_SUCCESS`. -/
def finalize (env : FinalizeEnv) : Int × List SignalRestoreCall :=
  (GENERAL_SUCCESS,
    [{ sig := SIGINT, dispo := SigDisp.dfl, ok := env.sigintOk },
     { sig := SIGCHLD, dispo := SigDisp.dfl, ok := env.sigchldOk }])

/-! ### Spec-side characterizations

These definitions follow the spec's words, to be compared with the
embedded code. -/

/-- A launch-loop stage succeeds when its pipe (needed only before the
last stage) and its `fork` both succeed. -/
def stage_ok (env : PipeEnv) (pipe_count i : Nat) : Bool :=
  (!decide (i < pipe_count) || env.pipeOk i) && env.forkOk i

def stages_all_ok (env : PipeEnv) (pipe_count : Nat) : Bool :=
  (List.range (pipe_count + 1)).all (stage_ok env pipe_count)

def waits_all_ok (env : PipeEnv) (pipe_count : Nat) : Bool :=
  (List.range (pipe_count + 1)).all (fun i => !wait_failed (env.waitErr i))

/-- Modelled from the spec's propagation policy: an orchestration
failure is a process-creation failure, a pipe-creation failure, or a
blocking-wait failure outside the swallowed class, in whichever handler
the classification selects; an over-bound pipeline performs no
orchestration at all. -/
def orchestration_failure (env : ShellEnv) (arglist : List String) : Bool :=
  if is_piping_command arglist then
    decide (count_pipes arglist ≤ 9) &&
      (!stages_all_ok env.pipe (count_pipes arglist) ||
       !waits_all_ok env.pipe (count_pipes arglist))
  else if is_background_command arglist then !env.cmd.forkOk
  else !env.cmd.forkOk || wait_failed env.cmd.waitErr

/-- The number of descriptors open in the parent beyond those some
spawned child has already received (and which the parent closes in the
same iteration). -/
def fds_beyond_handed (s : PState) : Nat :=
  (s.openFds.filter (fun x => !s.inherited.contains x)).length

/-! ### Helper lemmas -/

theorem run_stages_fst (env : PipeEnv) (pipe_count : Nat)
    (arglist : List (Option String)) :
    ∀ (l : List Nat) (s : PState),
      (run_stages env pipe_count arglist l s).1 = l.all (stage_ok env pipe_count) := by
  intro l
  induction l with
  | nil => intro s; rfl
  | cons i rest ih =>
    intro s
    by_cases hip : i < pipe_count <;> by_cases hpo : env.pipeOk i = true <;>
      by_cases hfo : env.forkOk i = true <;>
        simp [run_stages, stage_ok, hip, hpo, hfo, ih]

theorem wait_loop_fst (env : PipeEnv) :
    ∀ l : List Nat,
      (wait_loop env l).1 = l.all (fun i => !wait_failed (env.waitErr i)) := by
  intro l
  induction l with
  | nil => rfl
  | cons i rest ih =>
    by_cases hw : wait_failed (env.waitErr i) = true <;> simp [wait_loop, hw, ih]

theorem wait_loop_reads (env : PipeEnv) :
    ∀ (l : List Nat) (i : Nat), i ∈ (wait_loop env l).2 → i ∈ l := by
  intro l
  induction l with
  | nil => intro i h; simp [wait_loop] at h
  | cons j rest ih =>
    intro i h
    by_cases hw : wait_failed (env.waitErr j) = true
    · simp [wait_loop, hw] at h
      simp [h]
    · simp only [wait_loop, hw] at h
      simp only [Bool.false_eq_true, if_false, List.mem_cons] at h
      rcases h with h | h
      · simp [h]
      · exact List.mem_cons_of_mem _ (ih i h)

theorem run_stages_spawned (env : PipeEnv) (pipe_count : Nat)
    (arglist : List (Option String)) :
    ∀ (l : List Nat) (s : PState) (i : Nat),
      i ∈ (run_stages env pipe_count arglist l s).2.1.spawned →
        i ∈ s.spawned ∨ i ∈ l := by
  intro l
  induction l with
  | nil => intro s i h; exact Or.inl h
  | cons j rest ih =>
    intro s i h
    by_cases hp : (decide (j < pipe_count) && !(env.pipeOk j)) = true
    · simp only [run_stages, hp, if_true] at h
      exact Or.inl h
    · simp only [run_stages, hp, Bool.false_eq_true, if_false] at h
      by_cases hf : env.forkOk j = true
      · simp only [hf, Bool.not_true, Bool.false_eq_true, if_false] at h
        rcases ih _ i h with hs | hl
        · simp only [parent_step, fork_mark, pipe_apply] at hs
          by_cases hjp : j < pipe_count <;>
            simp only [hjp, if_true, if_false, List.mem_append, List.mem_singleton] at hs <;>
            · rcases hs with hs | hs
              · exact Or.inl hs
              · exact Or.inr (by simp [hs])
        · exact Or.inr (List.mem_cons_of_mem _ hl)
      · simp only [hf, Bool.not_false, if_true] at h
        simp only [pipe_apply] at h
        by_cases hjp : j < pipe_count <;> simp [hjp] at h <;> exact Or.inl h

theorem run_stages_oob (env : PipeEnv) (pipe_count : Nat)
    (arglist : List (Option String)) :
    ∀ (l : List Nat) (s : PState), s.oob = false → (∀ i ∈ l, i < 10) →
      (run_stages env pipe_count arglist l s).2.1.oob = false := by
  intro l
  induction l with
  | nil => intro s hs _; exact hs
  | cons j rest ih =>
    intro s hs hl
    by_cases hp : (decide (j < pipe_count) && !(env.pipeOk j)) = true
    · simp only [run_stages, hp, if_true]; exact hs
    · simp only [run_stages, hp, Bool.false_eq_true, if_false]
      by_cases hf : env.forkOk j = true
      · simp only [hf, Bool.not_true, Bool.false_eq_true, if_false]
        apply ih
        · have hj : j < 10 := hl j (by simp)
          by_cases hjp : j < pipe_count <;>
            simp [parent_step, fork_mark, pipe_apply, hjp, hs, Nat.not_le_of_lt hj]
        · intro i hi; exact hl i (List.mem_cons_of_mem _ hi)
      · simp only [hf, Bool.not_false, if_true]
        by_cases hjp : j < pipe_count <;> simp [pipe_apply, hjp, hs]

theorem visible_args_of_set_none :
    ∀ (t : List String) (k : Nat), k < t.length →
      execvp_visible_args ((t.map some).set k none) = t.take k := by
  intro t
  induction t with
  | nil => intro k hk; simp at hk
  | cons a t ih =>
    intro k hk
    cases k with
    | zero => simp [execvp_visible_args, List.set]
    | succ k =>
      have hk' : k < t.length := Nat.lt_of_succ_lt_succ hk
      simp only [List.map_cons, List.set, List.take]
      simp only [execvp_visible_args, List.takeWhile, Option.isSome_some] at ih ⊢
      simp [ih k hk']

theorem mem_of_is_piping {t : List String} (h : is_piping_command t = true) :
    "|" ∈ t := by
  simp only [is_piping_command, List.any_eq_true, beq_iff_eq] at h
  rcases h with ⟨w, hw, rfl⟩
  exact hw

theorem mem_of_is_background {t : List String} (h : is_background_command t = true) :
    "&" ∈ t := by
  simp only [is_background_command, beq_iff_eq] at h
  exact List.mem_of_getLast?_eq_some h

theorem mem_of_is_input {t : List String} (h : is_input_redirection_command t = true) :
    "<" ∈ t := by
  simp only [is_input_redirection_command, Bool.and_eq_true, decide_eq_true_eq,
    beq_iff_eq] at h
  rcases h with ⟨h2, hg⟩
  have hlt : t.length - 2 < t.length := by omega
  rw [List.getD_eq_getElem t "" hlt] at hg
  exact hg ▸ List.getElem_mem hlt

theorem mem_of_is_output {t : List String} (h : is_output_redirection_command t = true) :
    ">" ∈ t := by
  simp only [is_output_redirection_command, Bool.and_eq_true, decide_eq_true_eq,
    beq_iff_eq] at h
  rcases h with ⟨h2, hg⟩
  have hlt : t.length - 2 < t.length := by omega
  rw [List.getD_eq_getElem t "" hlt] at hg
  exact hg ▸ List.getElem_mem hlt

theorem is_piping_of_mem {t : List String} (h : "|" ∈ t) :
    is_piping_command t = true := by
  simp only [is_piping_command, List.any_eq_true, beq_iff_eq]
  exact ⟨"|", h, rfl⟩

theorem not_piping_of_not_mem {t : List String} (h : "|" ∉ t) :
    is_piping_command t = false := by
  cases hx : is_piping_command t
  · rfl
  · exact absurd (mem_of_is_piping hx) h

theorem not_background_of_not_mem {t : List String} (h : "&" ∉ t) :
    is_background_command t = false := by
  cases hx : is_background_command t
  · rfl
  · exact absurd (mem_of_is_background hx) h

theorem not_input_of_not_mem {t : List String} (h : "<" ∉ t) :
    is_input_redirection_command t = false := by
  cases hx : is_input_redirection_command t
  · rfl
  · exact absurd (mem_of_is_input hx) h

theorem not_output_of_not_mem {t : List String} (h : ">" ∉ t) :
    is_output_redirection_command t = false := by
  cases hx : is_output_redirection_command t
  · rfl
  · exact absurd (mem_of_is_output hx) h

/-- Two distinct operator words in the same line violate the
single-operator-class assumption. -/
theorem not_single_op_of_two {t : List String} {a b : String}
    (ha : a ∈ ["|", "&", "<", ">"]) (hb : b ∈ ["|", "&", "<", ">"]) (hab : a ≠ b)
    (hat : a ∈ t) (hbt : b ∈ t) : ¬single_operator_class t := by
  intro h
  simp only [single_operator_class, has_op, List.count_cons, List.count_nil,
    List.contains, List.elem_eq_mem] at h
  fin_cases ha <;> fin_cases hb <;> simp_all <;> split_ifs at h <;> omega

/-- When the values of the four operator predicates are fully
determined and agree with classification `c`, then `c` is the unique
classification that holds and `classify` selects it. -/
theorem exactly_one_case {t : List String} (c : Classification)
    (hp : is_piping_command t = decide (c = Classification.pipeline))
    (hb : is_background_command t = decide (c = Classification.background))
    (hi : is_input_redirection_command t = decide (c = Classification.inputRedirect))
    (ho : is_output_redirection_command t = decide (c = Classification.outputRedirect)) :
    (∃! k, classification_holds k t) ∧ classification_holds (classify t) t := by
  have hck : classify t = c := by
    cases c <;> simp [classify, hp, hb, hi, ho]
  have hholds : classification_holds c t := by
    cases c <;> simp [classification_holds, hp, hb, hi, ho]
  refine ⟨⟨c, hholds, ?_⟩, hck ▸ hholds⟩
  intro k hk
  cases c <;> cases k <;> simp_all [classification_holds]

theorem run_piped_commands_ret (env : PipeEnv) (t : List String) :
    (run_piped_commands env t).ret =
      (if 9 < count_pipes t then GENERAL_SUCCESS
       else if stages_all_ok env (count_pipes t) && waits_all_ok env (count_pipes t) then
         GENERAL_SUCCESS
       else GENERAL_FAILURE) := by
  unfold run_piped_commands
  by_cases hb : 9 < count_pipes t
  · simp [hb]
  · simp only [hb, if_false]
    by_cases hs : stages_all_ok env (count_pipes t) = true
    · have h1 : (run_stages env (count_pipes t) (set_pipes_to_null t)
          (List.range (count_pipes t + 1)) initPState).1 = true := by
        rw [run_stages_fst]; exact hs
      by_cases hw : waits_all_ok env (count_pipes t) = true
      · have h2 : (wait_loop env (List.range (count_pipes t + 1))).1 = true := by
          rw [wait_loop_fst]; exact hw
        simp [h1, h2, hs, hw]
      · have h2 : (wait_loop env (List.range (count_pipes t + 1))).1 = false := by
          rw [wait_loop_fst]
          simpa [waits_all_ok] using hw
        simp [h1, h2, hs, hw]
    · have h1 : (run_stages env (count_pipes t) (set_pipes_to_null t)
          (List.range (count_pipes t + 1)) initPState).1 = false := by
        rw [run_stages_fst]
        simpa [stages_all_ok] using hs
      simp [h1, hs]

/-! ### Claim theorems -/

/-- C2: for every token array with count ≥ 1 satisfying the
single-operator-class assumption, exactly one of the five
classifications (pipeline, background, input redirection, output
redirection, simple) holds, and the dispatcher's priority chain
`classify` — pipeline first, then background, then input redirection,
then output redirection, then simple, first match winning — selects
exactly that classification. -/
theorem classification_total_exclusive (t : List String)
    (_hlen : 1 ≤ t.length) (hsop : single_operator_class t) :
    (∃! c, classification_holds c t) ∧ classification_holds (classify t) t := by
  by_cases m1 : "|" ∈ t
  · have hb : "&" ∉ t := fun hm =>
      not_single_op_of_two (by simp) (by simp) (by decide) m1 hm hsop
    have hi : "<" ∉ t := fun hm =>
      not_single_op_of_two (by simp) (by simp) (by decide) m1 hm hsop
    have ho : ">" ∉ t := fun hm =>
      not_single_op_of_two (by simp) (by simp) (by decide) m1 hm hsop
    exact exactly_one_case Classification.pipeline
      (by simp [is_piping_of_mem m1]) (by simp [not_background_of_not_mem hb])
      (by simp [not_input_of_not_mem hi]) (by simp [not_output_of_not_mem ho])
  · by_cases m2 : "&" ∈ t
    · have hi : "<" ∉ t := fun hm =>
        not_single_op_of_two (by simp) (by simp) (by decide) m2 hm hsop
      have ho : ">" ∉ t := fun hm =>
        not_single_op_of_two (by simp) (by simp) (by decide) m2 hm hsop
      by_cases hbg : is_background_command t = true
      · exact exactly_one_case Classification.background
          (by simp [not_piping_of_not_mem m1]) (by simp [hbg])
          (by simp [not_input_of_not_mem hi]) (by simp [not_output_of_not_mem ho])
      · exact exactly_one_case Classification.simple
          (by simp [not_piping_of_not_mem m1])
          (by simp [Bool.not_eq_true] at hbg; simp [hbg])
          (by simp [not_input_of_not_mem hi]) (by simp [not_output_of_not_mem ho])
    · by_cases m3 : "<" ∈ t
      · have ho : ">" ∉ t := fun hm =>
          not_single_op_of_two (by simp) (by simp) (by decide) m3 hm hsop
        by_cases hin : is_input_redirection_command t = true
        · exact exactly_one_case Classification.inputRedirect
            (by simp [not_piping_of_not_mem m1]) (by simp [not_background_of_not_mem m2])
            (by simp [hin]) (by simp [not_output_of_not_mem ho])
        · exact exactly_one_case Classification.simple
            (by simp [not_piping_of_not_mem m1]) (by simp [not_background_of_not_mem m2])
            (by simp [Bool.not_eq_true] at hin; simp [hin])
            (by simp [not_output_of_not_mem ho])
      · by_cases m4 : ">" ∈ t
        · by_cases hout : is_output_redirection_command t = true
          · exact exactly_one_case Classification.outputRedirect
              (by simp [not_piping_of_not_mem m1]) (by simp [not_background_of_not_mem m2])
              (by simp [not_input_of_not_mem m3]) (by simp [hout])
          · exact exactly_one_case Classification.simple
              (by simp [not_piping_of_not_mem m1]) (by simp [not_background_of_not_mem m2])
              (by simp [not_input_of_not_mem m3])
              (by simp [Bool.not_eq_true] at hout; simp [hout])
        · exact exactly_one_case Classification.simple
            (by simp [not_piping_of_not_mem m1]) (by simp [not_background_of_not_mem m2])
            (by simp [not_input_of_not_mem m3]) (by simp [not_output_of_not_mem m4])

/-- C1: `process_arglist` returns the stop signal exactly when an
orchestration failure occurred — a `fork` failure, a `pipe` failure, or
a blocking-wait failure outside the swallowed `ECHILD`/`EINTR` class,
in the handler the classification selects — and returns the continue
signal in every other case.  The environment also carries every
child-local outcome (program replacement, redirection open,
descriptor duplication), and the equivalence holds for all of them, so
no child-local failure is ever surfaced as a dispatch failure. -/
theorem dispatch_stop_iff (env : ShellEnv) (t : List String) (_hlen : 1 ≤ t.length) :
    (process_arglist env t = PROC_ARGLIST_STOP ↔ orchestration_failure env t = true) ∧
    (process_arglist env t = PROC_ARGLIST_STOP ∨
      process_arglist env t = PROC_ARGLIST_CONTINUE) := by
  constructor
  · unfold process_arglist orchestration_failure
    by_cases hp : is_piping_command t = true
    · simp only [hp, if_true]
      rw [run_piped_commands_ret]
      by_cases hb : 9 < count_pipes t
      · have hb' : ¬count_pipes t ≤ 9 := by omega
        simp [hb, hb', GENERAL_SUCCESS, GENERAL_FAILURE, PROC_ARGLIST_STOP,
          PROC_ARGLIST_CONTINUE]
      · have hb' : count_pipes t ≤ 9 := by omega
        by_cases hsw : (stages_all_ok env.pipe (count_pipes t) &&
            waits_all_ok env.pipe (count_pipes t)) = true
        · rcases Bool.and_eq_true _ _ |>.mp hsw with ⟨hs, hw⟩
          simp [hb, hb', hs, hw, GENERAL_SUCCESS, GENERAL_FAILURE, PROC_ARGLIST_STOP,
            PROC_ARGLIST_CONTINUE]
        · simp only [hb, if_false, hsw, Bool.false_eq_true]
          simp only [Bool.and_eq_true, not_and_or, Bool.not_eq_true] at hsw
          rcases hsw with hs | hw
          · simp [hb', hs, GENERAL_SUCCESS, GENERAL_FAILURE, PROC_ARGLIST_STOP,
              PROC_ARGLIST_CONTINUE]
          · simp [hb', hw, GENERAL_SUCCESS, GENERAL_FAILURE, PROC_ARGLIST_STOP,
              PROC_ARGLIST_CONTINUE]
    · simp only [Bool.not_eq_true] at hp
      simp only [hp, Bool.false_eq_true, if_false]
      have hcases : ∀ fg : Bool,
          ((if run_command_internal env.cmd fg ≠ GENERAL_SUCCESS then PROC_ARGLIST_STOP
            else PROC_ARGLIST_CONTINUE) = PROC_ARGLIST_STOP ↔
            (!env.cmd.forkOk || (fg && wait_failed env.cmd.waitErr)) = true) := by
        intro fg
        unfold run_command_internal
        by_cases hf : env.cmd.forkOk = true
        · cases fg
          · simp [hf, GENERAL_SUCCESS, GENERAL_FAILURE, PROC_ARGLIST_STOP,
              PROC_ARGLIST_CONTINUE]
          · by_cases hw : wait_failed env.cmd.waitErr = true <;>
              simp [hf, hw, GENERAL_SUCCESS, GENERAL_FAILURE, PROC_ARGLIST_STOP,
                PROC_ARGLIST_CONTINUE]
        · simp only [Bool.not_eq_true] at hf
          simp [hf, GENERAL_SUCCESS, GENERAL_FAILURE, PROC_ARGLIST_STOP,
            PROC_ARGLIST_CONTINUE]
      by_cases hbg : is_background_command t = true
      · simpa [hbg, run_command] using hcases false
      · simp only [Bool.not_eq_true] at hbg
        by_cases hin : is_input_redirection_command t = true
        · simpa [hbg, hin, run_input_redirection_command] using hcases true
        · simp only [Bool.not_eq_true] at hin
          by_cases hout : is_output_redirection_command t = true
          · simpa [hbg, hin, hout, run_output_redirection_command] using hcases true
          · simp only [Bool.not_eq_true] at hout
            simpa [hbg, hin, hout, run_command] using hcases true
  · unfold process_arglist
    split_ifs <;> simp

/-- Concrete environments in which every modelled call succeeds. -/
def sampleChildEnv : ChildEnv := ⟨true, true, true, true⟩

def sampleLaunchEnv : LaunchEnv := ⟨true, none, sampleChildEnv⟩

def samplePipeEnv : PipeEnv :=
  ⟨fun _ => true, fun _ => true, fun _ => none, fun _ => ⟨true, true, true, true, true⟩⟩

def sampleShellEnv : ShellEnv := ⟨sampleLaunchEnv, samplePipeEnv⟩

/-- C1 witness: the theorem applied to the concrete line `echo hi` in
the all-successful environment. -/
theorem dispatch_stop_iff_witness :
    (process_arglist sampleShellEnv ["echo", "hi"] = PROC_ARGLIST_STOP ↔
      orchestration_failure sampleShellEnv ["echo", "hi"] = true) ∧
    (process_arglist sampleShellEnv ["echo", "hi"] = PROC_ARGLIST_STOP ∨
      process_arglist sampleShellEnv ["echo", "hi"] = PROC_ARGLIST_CONTINUE) :=
  dispatch_stop_iff sampleShellEnv ["echo", "hi"] (by decide)

/-- C2 witness: the theorem applied to the concrete line `echo hi`. -/
theorem classification_total_exclusive_witness :
    (∃! c, classification_holds c ["echo", "hi"]) ∧
      classification_holds (classify ["echo", "hi"]) ["echo", "hi"] :=
  classification_total_exclusive ["echo", "hi"] (by decide)
    (by unfold single_operator_class has_op; decide)

theorem mem_pipe_of_count_pos {t : List String} (h : 0 < count_pipes t) : "|" ∈ t := by
  unfold count_pipes at h
  have hne : t.filter (fun w => w == "|") ≠ [] := by
    intro he
    rw [he] at h
    simp at h
  rcases List.exists_mem_of_ne_nil _ hne with ⟨x, hx⟩
  rcases List.mem_filter.mp hx with ⟨hxt, hxe⟩
  simp only [beq_iff_eq] at hxe
  exact hxe ▸ hxt

/-- An eleven-stage pipeline command line: ten `|` separators. -/
def elevenStageLine : List String :=
  ["c0", "|", "c1", "|", "c2", "|", "c3", "|", "c4", "|", "c5", "|", "c6", "|",
   "c7", "|", "c8", "|", "c9", "|", "c10"]

/-- C3: a command line with more than 9 pipe separators is rejected by
the pipeline handler without spawning any process, the handler reports
success at the shell level, and `process_arglist` returns the continue
signal. -/
theorem pipeline_overbound_rejected (env : ShellEnv) (t : List String)
    (h : 9 < count_pipes t) :
    (run_piped_commands env.pipe t).ret = GENERAL_SUCCESS ∧
    (run_piped_commands env.pipe t).spawned = [] ∧
    process_arglist env t = PROC_ARGLIST_CONTINUE := by
  have hp : is_piping_command t = true :=
    is_piping_of_mem (mem_pipe_of_count_pos (by omega))
  have h1 : (run_piped_commands env.pipe t).ret = GENERAL_SUCCESS := by
    unfold run_piped_commands
    simp [h]
  have h2 : (run_piped_commands env.pipe t).spawned = [] := by
    unfold run_piped_commands
    simp [h]
  refine ⟨h1, h2, ?_⟩
  unfold process_arglist
  simp [hp, h1]

/-- C3 witness: the theorem applied to the concrete eleven-stage line. -/
theorem pipeline_overbound_rejected_witness :
    (run_piped_commands sampleShellEnv.pipe elevenStageLine).ret = GENERAL_SUCCESS ∧
    (run_piped_commands sampleShellEnv.pipe elevenStageLine).spawned = [] ∧
    process_arglist sampleShellEnv elevenStageLine = PROC_ARGLIST_CONTINUE :=
  pipeline_overbound_rejected sampleShellEnv elevenStageLine (by decide)

/-- C6 counterexample: the claim says an over-bound line's token array
is left unmodified by the pipeline handler, but on the concrete
eleven-stage line the handler returns a token array different from the
original (its pipe tokens were nulled before the bound check). -/
theorem overbound_arglist_modified_counterexample :
    (run_piped_commands samplePipeEnv elevenStageLine).arglist ≠
      elevenStageLine.map some := by decide

/-- C6 amended: the handler counts the pipe tokens and nulls every pipe
token before the bound check, so an over-bound line is still rejected
without spawning and reported as success, but its token array has every
pipe token replaced by a terminator (and is therefore modified whenever
a pipe token is present, as the over-bound hypothesis forces). -/
theorem pipeline_overbound_nulls_pipes (env : PipeEnv) (t : List String)
    (h : 9 < count_pipes t) :
    (run_piped_commands env t).arglist = set_pipes_to_null t ∧
    (run_piped_commands env t).arglist ≠ t.map some ∧
    (run_piped_commands env t).ret = GENERAL_SUCCESS ∧
    (run_piped_commands env t).spawned = [] := by
  have hmem : "|" ∈ t := mem_pipe_of_count_pos (by omega)
  have ha : (run_piped_commands env t).arglist = set_pipes_to_null t := by
    unfold run_piped_commands
    simp [h]
  refine ⟨ha, ?_, ?_, ?_⟩
  · rw [ha]
    intro he
    have h1 : some "|" ∈ t.map some := List.mem_map_of_mem some hmem
    rw [← he] at h1
    unfold set_pipes_to_null at h1
    rcases List.mem_map.mp h1 with ⟨w, hw, hwe⟩
    by_cases hwp : (w == "|") = true
    · simp [hwp] at hwe
    · simp only [hwp, Bool.false_eq_true, if_false, Option.some_inj] at hwe
      simp [hwe] at hwp
  · unfold run_piped_commands
    simp [h]
  · unfold run_piped_commands
    simp [h]

/-- C6 amended witness: the amended theorem applied to the concrete
eleven-stage line. -/
theorem pipeline_overbound_nulls_pipes_witness :
    (run_piped_commands samplePipeEnv elevenStageLine).arglist =
      set_pipes_to_null elevenStageLine ∧
    (run_piped_commands samplePipeEnv elevenStageLine).arglist ≠
      elevenStageLine.map some ∧
    (run_piped_commands samplePipeEnv elevenStageLine).ret = GENERAL_SUCCESS ∧
    (run_piped_commands samplePipeEnv elevenStageLine).spawned = [] :=
  pipeline_overbound_nulls_pipes samplePipeEnv elevenStageLine (by decide)

/-- C5 counterexample: the claim says every child — including a
background one — resets the interrupt disposition to default before
program replacement, but the launcher's background child reaches
`execvp` (the `exec` action is in its trace) without any `SIGINT`
reset before it. -/
theorem background_child_skips_sigint_counterexample :
    execPrecededBy SIGINT (run_command_child sampleChildEnv false false "sleep") = false ∧
    ChildAct.exec "sleep" ∈ run_command_child sampleChildEnv false false "sleep" := by
  decide

/-- C5 amended: every child resets the child-termination disposition to
default before program replacement; the interrupt disposition is also
reset before program replacement by every foreground launcher child and
by every pipeline-stage child, but not by a background launcher child
(which keeps the inherited ignored disposition). -/
theorem children_reset_dispositions (cenv : ChildEnv) (fg hasPrep : Bool)
    (prog : String) (penv : PChildEnv) (i p prevR toNextR toNextW : Nat)
    (prog2 : String) :
    execPrecededBy SIGCHLD (run_command_child cenv fg hasPrep prog) = true ∧
    (fg = true → execPrecededBy SIGINT (run_command_child cenv fg hasPrep prog) = true) ∧
    execPrecededBy SIGCHLD (pipeline_child penv i p prevR toNextR toNextW prog2) = true ∧
    execPrecededBy SIGINT (pipeline_child penv i p prevR toNextR toNextW prog2) = true := by
  refine ⟨?_, ?_, ?_, ?_⟩
  · simp [run_command_child, execPrecededBy, SIGCHLD]
  · intro hfg
    subst hfg
    by_cases hc : cenv.sigChldOk = true <;>
      simp [run_command_child, execPrecededBy, SIGCHLD, SIGINT, hc]
  · by_cases hip : i < p <;>
      simp [pipeline_child, execPrecededBy, SIGCHLD, hip]
  · by_cases hip : i < p <;> by_cases hc : penv.sigChldOk = true <;>
      simp [pipeline_child, execPrecededBy, SIGCHLD, SIGINT, hip, hc]

/-- C5 amended witness: the amended theorem applied to a concrete
foreground launcher child and a concrete two-stage pipeline child. -/
theorem children_reset_dispositions_witness :
    execPrecededBy SIGCHLD (run_command_child sampleChildEnv true false "ls") = true ∧
    (true = true → execPrecededBy SIGINT (run_command_child sampleChildEnv true false "ls") = true) ∧
    execPrecededBy SIGCHLD (pipeline_child ⟨true, true, true, true, true⟩ 0 1 3 3 4 "wc") = true ∧
    execPrecededBy SIGINT (pipeline_child ⟨true, true, true, true, true⟩ 0 1 3 3 4 "wc") = true :=
  children_reset_dispositions sampleChildEnv true false "ls" ⟨true, true, true, true, true⟩
    0 1 3 3 4 "wc"

/-- C7: in the foreground launcher's blocking wait and in the
pipeline's per-stage wait loop (performed in stage order after the
launch loop), a wait failure with `ECHILD` or `EINTR` is swallowed —
only a wait failure with any other error code makes the call fail. -/
theorem blocking_wait_swallows_echild_eintr (cenv : LaunchEnv) (penv : PipeEnv)
    (p : Nat) (e : Errno) (hf : cenv.forkOk = true) :
    (run_command_internal cenv true = GENERAL_SUCCESS ↔
      wait_failed cenv.waitErr = false) ∧
    ((wait_loop penv (List.range (p + 1))).1 =
      (List.range (p + 1)).all (fun i => !wait_failed (penv.waitErr i))) ∧
    wait_failed (some Errno.eCHILD) = false ∧
    wait_failed (some Errno.eINTR) = false ∧
    wait_failed none = false ∧
    (e ≠ Errno.eCHILD → e ≠ Errno.eINTR → wait_failed (some e) = true) := by
  refine ⟨?_, wait_loop_fst penv _, by decide, by decide, by decide, ?_⟩
  · unfold run_command_internal
    by_cases hw : wait_failed cenv.waitErr = true <;>
      simp [hf, hw, GENERAL_SUCCESS, GENERAL_FAILURE]
  · intro h1 h2
    cases e
    · exact absurd rfl h1
    · exact absurd rfl h2
    · decide

/-- C7 witness: the theorem applied to a concrete launcher environment
whose wait fails with `EINTR` and a concrete pipeline environment. -/
theorem blocking_wait_swallows_witness :
    (run_command_internal ⟨true, some Errno.eINTR, sampleChildEnv⟩ true = GENERAL_SUCCESS ↔
      wait_failed (LaunchEnv.mk true (some Errno.eINTR) sampleChildEnv).waitErr = false) ∧
    ((wait_loop samplePipeEnv (List.range (0 + 1))).1 =
      (List.range (0 + 1)).all (fun i => !wait_failed (samplePipeEnv.waitErr i))) ∧
    wait_failed (some Errno.eCHILD) = false ∧
    wait_failed (some Errno.eINTR) = false ∧
    wait_failed none = false ∧
    (Errno.eOther ≠ Errno.eCHILD → Errno.eOther ≠ Errno.eINTR →
      wait_failed (some Errno.eOther) = true) :=
  blocking_wait_swallows_echild_eintr ⟨true, some Errno.eINTR, sampleChildEnv⟩
    samplePipeEnv 0 Errno.eOther rfl

/-- C4: the input preparer opens the last token read-only (failing when
`open` fails, in which case nothing is dupped), duplicates the opened
descriptor onto standard input; the output preparer opens the last
token with write access, creating if absent and truncating if present,
with owner read/write permissions, and duplicates onto standard output;
in both directions the opened descriptor (when one was obtained) is
closed, the call succeeds exactly when both `open` and `dup2` succeed,
and on success the token array is truncated at the operator position so
program replacement sees only the tokens before the operator. -/
theorem redirection_preparers_spec (env : RedirEnv) (t : List String)
    (hlen : 2 ≤ t.length) :
    (input_redirection_preparation_handler env t).opened =
      (t.getLastD "", O_RDONLY, S_IRUSR ||| S_IWUSR) ∧
    (output_redirection_preparation_handler env t).opened =
      (t.getLastD "", O_RDWR ||| O_CREAT ||| O_TRUNC, S_IRUSR ||| S_IWUSR) ∧
    (input_redirection_preparation_handler env t).dupped =
      env.openFd.map (fun fd => (fd, STDIN_FILENO)) ∧
    (output_redirection_preparation_handler env t).dupped =
      env.openFd.map (fun fd => (fd, STDOUT_FILENO)) ∧
    (input_redirection_preparation_handler env t).closed = env.openFd ∧
    (output_redirection_preparation_handler env t).closed = env.openFd ∧
    (input_redirection_preparation_handler env t).ret =
      (if env.openFd.isSome && env.dup2Ok then GENERAL_SUCCESS else GENERAL_FAILURE) ∧
    (output_redirection_preparation_handler env t).ret =
      (if env.openFd.isSome && env.dup2Ok then GENERAL_SUCCESS else GENERAL_FAILURE) ∧
    ((env.openFd.isSome && env.dup2Ok) = true →
      execvp_visible_args (input_redirection_preparation_handler env t).arglist =
        t.take (t.length - 2) ∧
      execvp_visible_args (output_redirection_preparation_handler env t).arglist =
        t.take (t.length - 2)) := by
  have hvis : execvp_visible_args ((t.map some).set (t.length - 2) none) =
      t.take (t.length - 2) :=
    visible_args_of_set_none t (t.length - 2) (by omega)
  rcases henv : env.openFd with _ | fd <;> by_cases hd : env.dup2Ok = true <;>
    simp [input_redirection_preparation_handler, output_redirection_preparation_handler,
      henv, hd, hvis]

/-- C4 witness: the theorem applied to the concrete line
`wc -l < file.txt` with a successful open (descriptor 3) and a
successful duplication. -/
theorem redirection_preparers_spec_witness :
    (input_redirection_preparation_handler ⟨some 3, true⟩ ["wc", "-l", "<", "file.txt"]).opened =
      (["wc", "-l", "<", "file.txt"].getLastD "", O_RDONLY, S_IRUSR ||| S_IWUSR) ∧
    (output_redirection_preparation_handler ⟨some 3, true⟩ ["wc", "-l", "<", "file.txt"]).opened =
      (["wc", "-l", "<", "file.txt"].getLastD "", O_RDWR ||| O_CREAT ||| O_TRUNC,
        S_IRUSR ||| S_IWUSR) ∧
    (input_redirection_preparation_handler ⟨some 3, true⟩ ["wc", "-l", "<", "file.txt"]).dupped =
      (RedirEnv.mk (some 3) true).openFd.map (fun fd => (fd, STDIN_FILENO)) ∧
    (output_redirection_preparation_handler ⟨some 3, true⟩ ["wc", "-l", "<", "file.txt"]).dupped =
      (RedirEnv.mk (some 3) true).openFd.map (fun fd => (fd, STDOUT_FILENO)) ∧
    (input_redirection_preparation_handler ⟨some 3, true⟩ ["wc", "-l", "<", "file.txt"]).closed =
      (RedirEnv.mk (some 3) true).openFd ∧
    (output_redirection_preparation_handler ⟨some 3, true⟩ ["wc", "-l", "<", "file.txt"]).closed =
      (RedirEnv.mk (some 3) true).openFd ∧
    (input_redirection_preparation_handler ⟨some 3, true⟩ ["wc", "-l", "<", "file.txt"]).ret =
      (if (RedirEnv.mk (some 3) true).openFd.isSome && (RedirEnv.mk (some 3) true).dup2Ok then
        GENERAL_SUCCESS else GENERAL_FAILURE) ∧
    (output_redirection_preparation_handler ⟨some 3, true⟩ ["wc", "-l", "<", "file.txt"]).ret =
      (if (RedirEnv.mk (some 3) true).openFd.isSome && (RedirEnv.mk (some 3) true).dup2Ok then
        GENERAL_SUCCESS else GENERAL_FAILURE) ∧
    (((RedirEnv.mk (some 3) true).openFd.isSome && (RedirEnv.mk (some 3) true).dup2Ok) = true →
      execvp_visible_args
          (input_redirection_preparation_handler ⟨some 3, true⟩
            ["wc", "-l", "<", "file.txt"]).arglist =
        ["wc", "-l", "<", "file.txt"].take (["wc", "-l", "<", "file.txt"].length - 2) ∧
      execvp_visible_args
          (output_redirection_preparation_handler ⟨some 3, true⟩
            ["wc", "-l", "<", "file.txt"]).arglist =
        ["wc", "-l", "<", "file.txt"].take (["wc", "-l", "<", "file.txt"].length - 2)) :=
  redirection_preparers_spec ⟨some 3, true⟩ ["wc", "-l", "<", "file.txt"] (by decide)

/-- C9: `finalize` never depends on whether a prior `prepare` succeeded
and never fails: for every environment — including one where no prior
initialization succeeded and where the restoration calls themselves
fail — it performs a best-effort restoration of both signal
dispositions to default, ignores the restoration results, and returns
success. -/
theorem finalize_always_succeeds (env : FinalizeEnv) :
    (finalize env).1 = GENERAL_SUCCESS ∧
    (finalize env).2.map (fun c => (c.sig, c.dispo)) =
      [(SIGINT, SigDisp.dfl), (SIGCHLD, SigDisp.dfl)] := by
  simp [finalize]

/-- C10: for every token array the pipeline handler accepts (at most 9
pipe separators), every write of the 10-entry `pids` array (one per
spawned stage) and every read of it (one per waited stage) uses a stage
index between 0 and the separator count inclusive and hence below 10,
and the out-of-bounds branch of the guarded `pids` write is never
taken. -/
theorem pids_indexing_in_bounds (env : PipeEnv) (t : List String)
    (h : count_pipes t ≤ 9) :
    (run_piped_commands env t).oob = false ∧
    ((run_piped_commands env t).spawned.all
      (fun i => decide (i ≤ count_pipes t) && decide (i < 10))) = true ∧
    ((run_piped_commands env t).waitReads.all
      (fun i => decide (i ≤ count_pipes t) && decide (i < 10))) = true := by
  have hb : ¬9 < count_pipes t := by omega
  have hoob : (run_stages env (count_pipes t) (set_pipes_to_null t)
      (List.range (count_pipes t + 1)) initPState).2.1.oob = false := by
    apply run_stages_oob
    · rfl
    · intro i hi
      have := List.mem_range.mp hi
      omega
  have hsp : ∀ i ∈ (run_stages env (count_pipes t) (set_pipes_to_null t)
      (List.range (count_pipes t + 1)) initPState).2.1.spawned,
      (decide (i ≤ count_pipes t) && decide (i < 10)) = true := by
    intro i hi
    rcases run_stages_spawned env (count_pipes t) (set_pipes_to_null t) _ _ i hi with hc | hc
    · simp [initPState] at hc
    · have := List.mem_range.mp hc
      simp only [Bool.and_eq_true, decide_eq_true_eq]
      omega
  have hwr : ∀ i ∈ (wait_loop env (List.range (count_pipes t + 1))).2,
      (decide (i ≤ count_pipes t) && decide (i < 10)) = true := by
    intro i hi
    have := List.mem_range.mp (wait_loop_reads env _ i hi)
    simp only [Bool.and_eq_true, decide_eq_true_eq]
    omega
  unfold run_piped_commands
  simp only [hb, if_false]
  by_cases hr : (run_stages env (count_pipes t) (set_pipes_to_null t)
      (List.range (count_pipes t + 1)) initPState).1 = false
  · simp only [hr, if_true]
    exact ⟨hoob, List.all_eq_true.mpr hsp, rfl⟩
  · simp only [hr, if_false]
    exact ⟨hoob, List.all_eq_true.mpr hsp, List.all_eq_true.mpr hwr⟩

/-- C10 witness: the theorem applied to the concrete two-stage line
`ls | wc`. -/
theorem pids_indexing_in_bounds_witness :
    (run_piped_commands samplePipeEnv ["ls", "|", "wc"]).oob = false ∧
    ((run_piped_commands samplePipeEnv ["ls", "|", "wc"]).spawned.all
      (fun i => decide (i ≤ count_pipes ["ls", "|", "wc"]) && decide (i < 10))) = true ∧
    ((run_piped_commands samplePipeEnv ["ls", "|", "wc"]).waitReads.all
      (fun i => decide (i ≤ count_pipes ["ls", "|", "wc"]) && decide (i < 10))) = true :=
  pids_indexing_in_bounds samplePipeEnv ["ls", "|", "wc"] (by decide)

/-! ### The launch loop's descriptor invariant (C8) -/

/-- Invariant at the head of each launch-loop iteration: the parent's
open pipe descriptors are exactly the carried read end
(`pipe_from_prev[0]`); `pipe_from_prev[1]` is unregistered; every
descriptor still open was inherited by the child forked in the
iteration that created it; and both open and inherited descriptors are
below the allocator mark. -/
def launch_inv (s : PState) : Prop :=
  s.openFds = s.prevR.toList ∧ s.prevW = none ∧
  (∀ x ∈ s.openFds, x ∈ s.inherited) ∧
  (∀ x ∈ s.openFds, x < s.fresh) ∧
  (∀ x ∈ s.inherited, x < s.fresh)

theorem launch_inv_init : launch_inv initPState := by
  refine ⟨rfl, rfl, ?_, ?_, ?_⟩ <;> intro x hx <;> simp [initPState] at hx

/-- Everything each checkpoint must satisfy: at most one pipe's worth
of descriptors (2) open beyond those already handed to a spawned child,
and at an iteration's end the open set is exactly the carried read end
(empty after the last stage). -/
def checkpoint_ok (c : CheckTag × PState) : Bool :=
  decide (fds_beyond_handed c.2 ≤ 2) &&
    (match c.1 with
     | CheckTag.iterEnd b =>
         decide (c.2.openFds = c.2.prevR.toList) && (!b || decide (c.2.prevR = none))
     | _ => true)

theorem filter_not_inherited_eq_nil {fds inh : List Nat}
    (h : ∀ x ∈ fds, x ∈ inh) :
    fds.filter (fun x => !inh.contains x) = [] := by
  rw [List.filter_eq_nil_iff]
  intro x hx
  simp [List.contains, h x hx]

theorem beyond_pipe_apply (pipe_count i : Nat) {s : PState}
    (h3 : ∀ x ∈ s.openFds, x ∈ s.inherited) :
    fds_beyond_handed (pipe_apply pipe_count i s) ≤ 2 := by
  have he := filter_not_inherited_eq_nil h3
  unfold pipe_apply
  by_cases hip : i < pipe_count
  · rw [if_pos hip]
    show ((s.openFds ++ [s.fresh, s.fresh + 1]).filter
        (fun x => !s.inherited.contains x)).length ≤ 2
    rw [List.filter_append, he, List.nil_append]
    calc (([s.fresh, s.fresh + 1].filter (fun x => !s.inherited.contains x))).length
        ≤ [s.fresh, s.fresh + 1].length := List.length_filter_le _ _
      _ = 2 := rfl
  · rw [if_neg hip]
    show (s.openFds.filter (fun x => !s.inherited.contains x)).length ≤ 2
    rw [he]
    simp

theorem beyond_fork_mark (i : Nat) (s1 : PState) :
    fds_beyond_handed (fork_mark i s1) ≤ 2 := by
  have he : s1.openFds.filter
      (fun x => !((s1.inherited ++ s1.openFds).contains x)) = [] :=
    filter_not_inherited_eq_nil (fun x hx => List.mem_append_right _ hx)
  show (s1.openFds.filter
      (fun x => !((s1.inherited ++ s1.openFds).contains x))).length ≤ 2
  rw [he]
  simp

theorem parent_step_state (pipe_count i : Nat) (arglist : List (Option String))
    {s : PState} (h1 : s.openFds = s.prevR.toList) (h2 : s.prevW = none) :
    (parent_step pipe_count i arglist s.fresh (fork_mark i (pipe_apply pipe_count i s))).openFds
      = (if i < pipe_count then [s.fresh] else []) ∧
    (parent_step pipe_count i arglist s.fresh (fork_mark i (pipe_apply pipe_count i s))).prevR
      = (if i < pipe_count then some s.fresh else none) ∧
    (parent_step pipe_count i arglist s.fresh (fork_mark i (pipe_apply pipe_count i s))).prevW
      = none ∧
    (parent_step pipe_count i arglist s.fresh (fork_mark i (pipe_apply pipe_count i s))).inherited
      = s.inherited ++ (pipe_apply pipe_count i s).openFds ∧
    (parent_step pipe_count i arglist s.fresh (fork_mark i (pipe_apply pipe_count i s))).fresh
      = (if i < pipe_count then s.fresh + 2 else s.fresh) := by
  have hbe : (s.fresh == s.fresh + 1) = false := by
    rw [beq_eq_false_iff_ne]
    omega
  refine ⟨?_, rfl, rfl, ?_, ?_⟩
  · by_cases hip : i < pipe_count
    · simp only [parent_step, fork_mark, pipe_apply, hip, if_true]
      rw [h2, h1]
      cases hpr : s.prevR with
      | none => simp [eraseOpt, List.erase_cons, hbe]
      | some r => simp [eraseOpt, List.erase_cons, hbe]
    · simp only [parent_step, fork_mark, pipe_apply, hip, if_false]
      rw [h2, h1]
      cases hpr : s.prevR with
      | none => simp [eraseOpt]
      | some r => simp [eraseOpt]
  · by_cases hip : i < pipe_count <;>
      simp [parent_step, fork_mark, pipe_apply, hip]
  · by_cases hip : i < pipe_count <;>
      simp [parent_step, fork_mark, pipe_apply, hip]

theorem parent_step_inv (pipe_count i : Nat) (arglist : List (Option String))
    {s : PState} (hs : launch_inv s) :
    launch_inv (parent_step pipe_count i arglist s.fresh (fork_mark i (pipe_apply pipe_count i s))) ∧
    checkpoint_ok (CheckTag.iterEnd (decide (i = pipe_count)),
      parent_step pipe_count i arglist s.fresh (fork_mark i (pipe_apply pipe_count i s))) = true := by
  obtain ⟨h1, h2, h3, h4, h5⟩ := hs
  obtain ⟨e1, e2, e3, e4, e5⟩ := parent_step_state pipe_count i arglist h1 h2
  have hopen_sub : ∀ x ∈ (parent_step pipe_count i arglist s.fresh
      (fork_mark i (pipe_apply pipe_count i s))).openFds,
      x ∈ (parent_step pipe_count i arglist s.fresh
        (fork_mark i (pipe_apply pipe_count i s))).inherited := by
    intro x hx
    rw [e1] at hx
    rw [e4]
    by_cases hip : i < pipe_count
    · simp only [hip, if_true, List.mem_singleton] at hx
      subst hx
      apply List.mem_append_right
      unfold pipe_apply
      simp [hip]
    · simp [hip] at hx
  have hinv : launch_inv (parent_step pipe_count i arglist s.fresh
      (fork_mark i (pipe_apply pipe_count i s))) := by
    refine ⟨?_, e3, hopen_sub, ?_, ?_⟩
    · rw [e1, e2]
      by_cases hip : i < pipe_count <;> simp [hip]
    · intro x hx
      rw [e1] at hx
      rw [e5]
      by_cases hip : i < pipe_count
      · rw [if_pos hip]
        simp only [hip, if_true, List.mem_singleton] at hx
        omega
      · simp [hip] at hx
    · intro x hx
      rw [e4] at hx
      rw [e5]
      rcases List.mem_append.mp hx with hx | hx
      · have hx5 := h5 x hx
        by_cases hip : i < pipe_count
        · rw [if_pos hip]; omega
        · rw [if_neg hip]; omega
      · unfold pipe_apply at hx
        by_cases hip : i < pipe_count
        · rw [if_pos hip] at hx
          rw [if_pos hip]
          simp only [List.mem_append] at hx
          rcases hx with hx | hx
          · have hx4 := h4 x hx
            omega
          · simp only [List.mem_cons, List.not_mem_nil, or_false,
              List.mem_singleton] at hx
            rcases hx with hx | hx <;> omega
        · rw [if_neg hip] at hx
          rw [if_neg hip]
          exact h4 x hx
  refine ⟨hinv, ?_⟩
  unfold checkpoint_ok
  have hbe : fds_beyond_handed (parent_step pipe_count i arglist s.fresh
      (fork_mark i (pipe_apply pipe_count i s))) ≤ 2 := by
    unfold fds_beyond_handed
    rw [filter_not_inherited_eq_nil hopen_sub]
    simp
  simp only [hbe, decide_eq_true_eq, Bool.and_eq_true, Bool.or_eq_true, Bool.not_eq_true]
  refine ⟨by simp [hbe], ?_⟩
  simp only [hinv.1, decide_eq_true_eq]
  refine ⟨by simp, ?_⟩
  by_cases hip : i = pipe_count
  · subst hip
    rw [e2]
    simp
  · simp [hip]

theorem run_stages_checkpoints (env : PipeEnv) (pipe_count : Nat)
    (arglist : List (Option String)) :
    ∀ (l : List Nat) (s : PState), launch_inv s →
      ∀ c ∈ (run_stages env pipe_count arglist l s).2.2, checkpoint_ok c = true := by
  intro l
  induction l with
  | nil => intro s hs c hc; simp [run_stages] at hc
  | cons i rest ih =>
    intro s hs c hc
    by_cases hp : (decide (i < pipe_count) && !(env.pipeOk i)) = true
    · simp only [run_stages, hp, if_true] at hc
      simp at hc
    · simp only [run_stages, hp, Bool.false_eq_true, if_false] at hc
      by_cases hf : env.forkOk i = true
      · simp only [hf, Bool.not_true, Bool.false_eq_true, if_false] at hc
        rcases List.mem_cons.mp hc with rfl | hc
        · have hby := beyond_pipe_apply pipe_count i hs.2.2.1
          simp [checkpoint_ok, hby]
        · rcases List.mem_cons.mp hc with rfl | hc
          · have hby := beyond_fork_mark i (pipe_apply pipe_count i s)
            simp [checkpoint_ok, hby]
          · rcases List.mem_cons.mp hc with rfl | hc
            · exact (parent_step_inv pipe_count i arglist hs).2
            · exact ih _ (parent_step_inv pipe_count i arglist hs).1 c hc
      · simp only [hf, Bool.not_false, if_true] at hc
        rcases List.mem_cons.mp hc with rfl | hc
        · have hby := beyond_pipe_apply pipe_count i hs.2.2.1
          simp [checkpoint_ok, hby]
        · simp at hc

/-- C8: at every checkpoint of the pipeline orchestrator's launch loop
— after each `pipe` call, after each `fork`, and at each iteration's
end — the parent holds at most one pipe's worth of descriptors (2
endpoints) open beyond those already handed to a spawned child, and at
the end of each iteration the open set is exactly the read end carried
forward as the next stage's input (empty at the last stage's end):
every other endpoint the parent created has been closed. -/
theorem pipeline_parent_fd_discipline (env : PipeEnv) (t : List String) :
    (run_piped_commands env t).checkpoints.all checkpoint_ok = true := by
  unfold run_piped_commands
  by_cases hb : 9 < count_pipes t
  · simp [hb]
  · simp only [hb, if_false]
    have hmain := run_stages_checkpoints env (count_pipes t) (set_pipes_to_null t)
      (List.range (count_pipes t + 1)) initPState launch_inv_init
    by_cases hr : (run_stages env (count_pipes t) (set_pipes_to_null t)
        (List.range (count_pipes t + 1)) initPState).1 = false
    · simp only [hr, if_true]
      exact List.all_eq_true.mpr (fun c hc => hmain c hc)
    · simp only [hr, if_false]
      exact List.all_eq_true.mpr (fun c hc => hmain c hc)

end Myshell
